import Mathlib

/-!
Shallow embedding of `src/Containers/TriggerContainer.js` (a React view-state
controller for one monitored "trigger"): the fetch orchestrator (`getData`),
the three mutation operations (`disableTrhrottling`, `setMaintenance`,
`removeMetric`), the metric sort engine (`sortMetrics` with its four
comparator families), and the sort-selection toggle handler (`onSort`).

Modelling conventions:
- `this.setState` batches are modelled as the list of observable states a
  method commits, in order; `getData` returns that list, so atomicity of a
  cycle is the statement that the list has at most one element.
- Promise-returning API reads are `Except Unit α` values; `await` on a
  rejected promise short-circuits the surrounding `try`/`catch` (for
  `getData`) or aborts the whole async method (for the mutations, which have
  no `catch`).
- JS numbers are `Int` (every value the claims touch is integral);
  a possibly-`undefined` field is an `Option`.
- JS string comparison (`<` on strings) is code-unit lexicographic order,
  embedded as `charListLt` on the underlying character lists.
- `Array.prototype.sort(cmp)` is modelled as an insertion sort by the
  boolean relation `cmp a b ≤ 0`; every claim below depends only on the
  comparator values and on the result being a permutation, never on which
  permutation a tie produces.
-/

namespace TriggerContainer

/-- Events are opaque to the core: only fetched, counted and paginated. -/
abbrev Event := Nat

/-- One time series under evaluation (`Domain/Metric`): `state` is the status
enum (opaque string), `event_timestamp` and `value` may be absent. -/
structure Metric where
  state : String
  event_timestamp : Option Int
  value : Option Int
deriving DecidableEq

/-- Static definition of an alert rule; opaque beyond its `id`. -/
structure Trigger where
  id : String
deriving DecidableEq

/-- Live evaluation snapshot: a mapping metric-name → `Metric`, embedded as an
association list in JS object-key order. -/
structure TriggerState where
  metrics : List (String × Metric)
deriving DecidableEq

/-- Paginated event batch, shape from the `State` flow type (lines 25-30). -/
structure TriggerEvents where
  total : Nat
  list : List Event
  page : Nat
  size : Nat
deriving DecidableEq

/-- The `sorting` field of the controller state (line 31). -/
inductive Sorting
  | state
  | name
  | event
  | value
deriving DecidableEq

/-- The controller's `this.state` (lines 20-33). -/
structure ViewState where
  loading : Bool
  error : Option String
  trigger : Option Trigger
  triggerState : Option TriggerState
  triggerEvents : Option TriggerEvents
  sorting : Sorting
  sortingDown : Bool
deriving DecidableEq

/-- Initial state (lines 37-45). -/
def initialViewState : ViewState :=
  { loading := true
    error := none
    trigger := none
    triggerState := none
    triggerEvents := none
    sorting := Sorting.value
    sortingDown := true }

/-- The three read operations of the opaque API collaborator; a rejected
promise is `Except.error ()`. -/
structure Api where
  getTrigger : String → Except Unit Trigger
  getTriggerState : String → Except Unit TriggerState
  getTriggerEvents : String → Except Unit TriggerEvents

/-- The fixed message committed on any read failure (line 69). -/
def networkErrorMessage : String := "Network error. Please, reload page"

/-- `getData` (lines 51-71): `id` is `none` when `match.params.id` is not a
string (the guard `typeof id !== 'string'` then returns without touching
state).  The three reads run sequentially; a rejection anywhere jumps to the
single `catch`.  The result is the list of `setState` batches the call
commits, each applied to the pre-call state `s`. -/
def getData (api : Api) (id : Option String) (s : ViewState) : List ViewState :=
  match id with
  | none => []
  | some id =>
    match api.getTrigger id with
    | Except.error _ => [{ s with error := some networkErrorMessage }]
    | Except.ok trigger =>
      match api.getTriggerState id with
      | Except.error _ => [{ s with error := some networkErrorMessage }]
      | Except.ok triggerState =>
        match api.getTriggerEvents id with
        | Except.error _ => [{ s with error := some networkErrorMessage }]
        | Except.ok triggerEvents =>
          [{ s with
              loading := false
              trigger := some trigger
              triggerState := some triggerState
              triggerEvents := some triggerEvents }]

/-- One write call issued to the API collaborator. -/
inductive ApiWrite
  | delThrottling (triggerId : String)
  | setMaintenance (triggerId : String) (payload : List (String × Int))
  | delMetric (triggerId : String) (metric : String)
deriving DecidableEq

/-- One observable step of a mutation method: the synchronous
`setState({loading: true})`, a write call, or the `this.getData(this.props)`
refresh. -/
inductive MutStep
  | setLoadingTrue
  | write (w : ApiWrite)
  | refresh
deriving DecidableEq

/-- Is this step a write call? -/
def MutStep.isWrite : MutStep → Bool
  | MutStep.write _ => true
  | _ => false

/-- `disableTrhrottling` (lines 73-77; the source spells it with the typo).
`writeOk` is whether the awaited `delThrottling` promise resolves: the method
has no `catch`, so a rejection aborts it before `this.getData` runs. -/
def disableTrhrottling (triggerId : String) (writeOk : Bool) : List MutStep :=
  MutStep.setLoadingTrue :: MutStep.write (ApiWrite.delThrottling triggerId) ::
    (if writeOk then [MutStep.refresh] else [])

/-- The timestamp put in the maintenance payload (lines 83-89):
`maintenanceTime` is the result of the external `getMaintenanceTime`;
`now` is the current UTC time in epoch seconds, so
`moment.utc().add(m, 'minutes').unix()` is `now + 60 * m`. -/
def maintenancePayloadTime (now maintenanceTime : Int) : Int :=
  if maintenanceTime > 0 then now + 60 * maintenanceTime else maintenanceTime

/-- `setMaintenance` (lines 79-92): loading, one `setMaintenance` write with a
single-entry payload `{ [metric]: … }`, then refresh if the write resolved. -/
def setMaintenance (triggerId : String) (maintenanceTime : Int) (metric : String)
    (now : Int) (writeOk : Bool) : List MutStep :=
  MutStep.setLoadingTrue ::
    MutStep.write
      (ApiWrite.setMaintenance triggerId
        [(metric, maintenancePayloadTime now maintenanceTime)]) ::
    (if writeOk then [MutStep.refresh] else [])

/-- `removeMetric` (lines 94-98). -/
def removeMetric (triggerId : String) (metric : String) (writeOk : Bool) : List MutStep :=
  MutStep.setLoadingTrue :: MutStep.write (ApiWrite.delMetric triggerId metric) ::
    (if writeOk then [MutStep.refresh] else [])

/-- The `onSort` handler (lines 189-196): same key flips `sortingDown`, a new
key is adopted with `sortingDown` reset to `true`. -/
def onSort (newSorting : Sorting) (s : ViewState) : ViewState :=
  if newSorting = s.sorting then { s with sortingDown := !s.sortingDown }
  else { s with sorting := newSorting, sortingDown := true }

/-- `metrics[k]`: property access on the metric map.  The comparators only
apply it to keys produced by `Object.keys(metrics)`, where the lookup always
succeeds; the default is unreachable there. -/
def findMetric (metrics : List (String × Metric)) (k : String) : Metric :=
  (metrics.lookup k).getD { state := "", event_timestamp := none, value := none }

/-- JS `<` on two possibly-`undefined` numbers: `undefined < x` and
`x < undefined` are both `false` for every `x`. -/
def jsLt : Option Int → Option Int → Bool
  | some a, some b => decide (a < b)
  | _, _ => false

/-- JS code-unit lexicographic `<` on strings, over their character lists. -/
def charListLt : List Char → List Char → Bool
  | _, [] => false
  | [], _ :: _ => true
  | a :: as, b :: bs => a < b || (a == b && charListLt as bs)

/-- `String.prototype.trim`: strip leading and trailing whitespace. -/
def jsTrim (cs : List Char) : List Char :=
  ((cs.dropWhile Char.isWhitespace).reverse.dropWhile Char.isWhitespace).reverse

/-- A character the regex `/[^a-zA-Z0-9-.]/g` does NOT delete. -/
def keptByRegex (c : Char) : Bool :=
  c.isAlphanum || c == '-' || c == '.'

/-- The name normalization of the `name` comparator (lines 115-123):
trim, delete every character outside `[a-zA-Z0-9-.]`, lowercase. -/
def normalizeName (s : String) : List Char :=
  ((jsTrim s.data).filter keptByRegex).map Char.toLower

/-- The `state` comparator (lines 103-113); `getStatusWeight` is the opaque
severity-weight collaborator from `Domain/Status`. -/
def stateCmp (getStatusWeight : String → Int) (metrics : List (String × Metric))
    (sortingDown : Bool) (a b : String) : Int :=
  let A := getStatusWeight (findMetric metrics a).state
  let B := getStatusWeight (findMetric metrics b).state
  if A < B then (if sortingDown then -1 else 1)
  else if A > B then (if sortingDown then 1 else -1)
  else 0

/-- The `name` comparator (lines 114-131). -/
def nameCmp (sortingDown : Bool) (a b : String) : Int :=
  let A := normalizeName a
  let B := normalizeName b
  if charListLt A B then (if sortingDown then -1 else 1)
  else if charListLt B A then (if sortingDown then 1 else -1)
  else 0

/-- The `event` comparator (lines 132-142): raw `event_timestamp` fields with
no default, compared with JS `<` / `>`. -/
def eventCmp (metrics : List (String × Metric)) (sortingDown : Bool) (a b : String) : Int :=
  let A := (findMetric metrics a).event_timestamp
  let B := (findMetric metrics b).event_timestamp
  if jsLt A B then (if sortingDown then -1 else 1)
  else if jsLt B A then (if sortingDown then 1 else -1)
  else 0

/-- The `value` comparator (lines 143-153): `metrics[k].value || 0` treats an
absent value (and `0` itself) as `0`. -/
def valueCmp (metrics : List (String × Metric)) (sortingDown : Bool) (a b : String) : Int :=
  let A := (findMetric metrics a).value.getD 0
  let B := (findMetric metrics b).value.getD 0
  if A < B then (if sortingDown then -1 else 1)
  else if A > B then (if sortingDown then 1 else -1)
  else 0

/-- The `sortingFn` dispatch table (lines 102-154). -/
def sortingFn (getStatusWeight : String → Int) (metrics : List (String × Metric))
    (sorting : Sorting) (sortingDown : Bool) : String → String → Int :=
  match sorting with
  | Sorting.state => stateCmp getStatusWeight metrics sortingDown
  | Sorting.name => nameCmp sortingDown
  | Sorting.event => eventCmp metrics sortingDown
  | Sorting.value => valueCmp metrics sortingDown

/-- Insert `a` into `l` before the first element `b` with `le a b = true`. -/
def insertLe {α : Type} (le : α → α → Bool) (a : α) : List α → List α
  | [] => [a]
  | b :: l => if le a b then a :: b :: l else b :: insertLe le a l

/-- Insertion sort by a boolean relation; the model of
`Array.prototype.sort` with a comparator: `le a b` is `cmp a b ≤ 0`. -/
def sortByLe {α : Type} (le : α → α → Bool) : List α → List α
  | [] => []
  | a :: l => insertLe le a (sortByLe le l)

/-- `sortMetrics` (lines 100-160): sort `Object.keys(metrics)` by the selected
comparator, then rebuild a fresh object in sorted key order via
`reduce`/spread, reading each value back with `metrics[key]`. -/
def sortMetrics (getStatusWeight : String → Int) (metrics : List (String × Metric))
    (sorting : Sorting) (sortingDown : Bool) : List (String × Metric) :=
  (sortByLe
      (fun a b => sortingFn getStatusWeight metrics sorting sortingDown a b ≤ 0)
      (metrics.map Prod.fst)).filterMap
    (fun key => (metrics.lookup key).map (fun m => (key, m)))

/-- A concrete API whose three reads all succeed, for witnesses. -/
def apiAllOk : Api :=
  { getTrigger := fun i => Except.ok ⟨i⟩
    getTriggerState := fun _ => Except.ok ⟨[]⟩
    getTriggerEvents := fun _ => Except.ok ⟨0, [], 1, 100⟩ }

/-- A concrete API whose first read rejects, for witnesses. -/
def apiFirstFails : Api :=
  { getTrigger := fun _ => Except.error ()
    getTriggerState := fun _ => Except.ok ⟨[]⟩
    getTriggerEvents := fun _ => Except.ok ⟨0, [], 1, 100⟩ }

/-! ### Helper lemmas -/

theorem insertLe_perm {α : Type} (le : α → α → Bool) (a : α) :
    ∀ l : List α, (insertLe le a l).Perm (a :: l) := by
  intro l
  induction l with
  | nil => exact List.Perm.refl _
  | cons b l ih =>
    cases h : le a b with
    | true => simp [insertLe, h]
    | false =>
      simp only [insertLe, h, Bool.false_eq_true, if_false]
      exact (ih.cons b).trans (List.Perm.swap a b l)

theorem sortByLe_perm {α : Type} (le : α → α → Bool) :
    ∀ l : List α, (sortByLe le l).Perm l := by
  intro l
  induction l with
  | nil => exact List.Perm.refl _
  | cons a l ih =>
    exact (insertLe_perm le a (sortByLe le l)).trans (ih.cons a)

theorem filterMap_lookup_self (metrics : List (String × Metric))
    (hnd : (metrics.map Prod.fst).Nodup) :
    (metrics.map Prod.fst).filterMap
      (fun key => (metrics.lookup key).map (fun m => (key, m))) = metrics := by
  induction metrics with
  | nil => rfl
  | cons p rest ih =>
    obtain ⟨k, v⟩ := p
    simp only [List.map_cons, List.nodup_cons, List.mem_map] at hnd
    obtain ⟨hk, hrest⟩ := hnd
    have htail : (rest.map Prod.fst).filterMap
        (fun key => (List.lookup key ((k, v) :: rest)).map (fun m => (key, m)))
        = (rest.map Prod.fst).filterMap
        (fun key => (rest.lookup key).map (fun m => (key, m))) := by
      apply List.filterMap_congr
      intro x hx
      have hxk : (x == k) = false := by
        refine beq_eq_false_iff_ne.mpr ?_
        intro hxeq
        subst hxeq
        exact hk (List.mem_map.mp hx)
      simp [List.lookup, hxk]
    simp only [List.map_cons, List.filterMap_cons, List.lookup_cons_self]
    simp only [Option.map_some']
    rw [htail, ih hrest]

theorem sortMetrics_perm_of_nodup (getStatusWeight : String → Int)
    (metrics : List (String × Metric)) (sorting : Sorting) (sortingDown : Bool)
    (hnd : (metrics.map Prod.fst).Nodup) :
    (sortMetrics getStatusWeight metrics sorting sortingDown).Perm metrics := by
  unfold sortMetrics
  have h1 := sortByLe_perm
    (fun a b => sortingFn getStatusWeight metrics sorting sortingDown a b ≤ 0)
    (metrics.map Prod.fst)
  have h2 := h1.filterMap (fun key => (metrics.lookup key).map (fun m => (key, m)))
  rw [filterMap_lookup_self metrics hnd] at h2
  exact h2

theorem jsLt_none_left (x : Option Int) : jsLt none x = false := by
  cases x <;> rfl

theorem jsLt_none_right (x : Option Int) : jsLt x none = false := by
  cases x <;> rfl

theorem charListLt_irrefl : ∀ cs : List Char, charListLt cs cs = false := by
  intro cs
  induction cs with
  | nil => rfl
  | cons c cs ih => simp [charListLt, ih]

theorem charListLt_asymm :
    ∀ A B : List Char, charListLt A B = true → charListLt B A = false := by
  intro A
  induction A with
  | nil =>
    intro B h
    cases B with
    | nil => simp [charListLt] at h
    | cons b bs => rfl
  | cons a as ih =>
    intro B h
    cases B with
    | nil => simp [charListLt] at h
    | cons b bs =>
      simp only [charListLt, Bool.or_eq_true, Bool.and_eq_true] at h
      rcases h with h | ⟨heq, hrec⟩
      · have hab : a < b := of_decide_eq_true h
        have h1 : (decide (b < a)) = false := decide_eq_false (lt_asymm hab)
        have h2 : (b == a) = false := by
          refine beq_eq_false_iff_ne.mpr ?_
          intro hba
          subst hba
          exact lt_irrefl _ hab
        simp [charListLt, h1, h2]
      · have hab : a = b := by simpa using heq
        subst hab
        have h1 : (decide (a < a)) = false := decide_eq_false (lt_irrefl a)
        simp [charListLt, h1, ih bs hrec]

theorem jsLt_asymm : ∀ A B : Option Int, jsLt A B = true → jsLt B A = false := by
  intro A B h
  cases A with
  | none => simp [jsLt_none_left] at h
  | some a =>
    cases B with
    | none => simp [jsLt_none_right] at h
    | some b =>
      have hab : a < b := of_decide_eq_true (by simpa [jsLt] using h)
      simp [jsLt, decide_eq_false (lt_asymm hab)]

theorem lookup_isSome_of_map_fst_eq {ms₁ ms₂ : List (String × Metric)}
    (h : ms₁.map Prod.fst = ms₂.map Prod.fst) (k : String) :
    (ms₁.lookup k).isSome = (ms₂.lookup k).isSome := by
  induction ms₁ generalizing ms₂ with
  | nil =>
    cases ms₂ with
    | nil => rfl
    | cons q qs => simp at h
  | cons p ps ih =>
    cases ms₂ with
    | nil => simp at h
    | cons q qs =>
      obtain ⟨k₁, v₁⟩ := p
      obtain ⟨k₂, v₂⟩ := q
      simp only [List.map_cons, List.cons.injEq] at h
      obtain ⟨hfst, htail⟩ := h
      subst hfst
      cases hk : (k == k₁) <;> simp [List.lookup, hk, ih htail]

theorem sortMetrics_key_order_ext (getStatusWeight : String → Int)
    (ms₁ ms₂ : List (String × Metric)) (sorting : Sorting) (sortingDown : Bool)
    (hkeys : ms₁.map Prod.fst = ms₂.map Prod.fst)
    (hcmp : ∀ u v, sortingFn getStatusWeight ms₁ sorting sortingDown u v =
      sortingFn getStatusWeight ms₂ sorting sortingDown u v) :
    (sortMetrics getStatusWeight ms₁ sorting sortingDown).map Prod.fst =
      (sortMetrics getStatusWeight ms₂ sorting sortingDown).map Prod.fst := by
  have hle : (fun u v => decide (sortingFn getStatusWeight ms₁ sorting sortingDown u v ≤ 0))
      = (fun u v => decide (sortingFn getStatusWeight ms₂ sorting sortingDown u v ≤ 0)) := by
    funext u v
    rw [hcmp u v]
  unfold sortMetrics
  rw [List.map_filterMap, List.map_filterMap, hkeys, hle]
  apply List.filterMap_congr
  intro k _
  have hs := lookup_isSome_of_map_fst_eq hkeys k
  cases h1 : ms₁.lookup k <;> cases h2 : ms₂.lookup k <;> simp_all

/-! ### Claim theorems -/

/-- Claim C1: a fetch cycle commits at most one `setState` batch (so there is
no observable intermediate state); when all three sequential reads succeed the
single batch sets `loading := false` together with all three data fields; and
every state a cycle commits either leaves all three data fields untouched
(failure path) or is the full three-field snapshot of a fully successful
read sequence — never a state with only one or two fields populated. -/
theorem fetch_cycle_atomic_snapshot (api : Api) (id : String) (s : ViewState) :
    (getData api (some id) s).length ≤ 1 ∧
    (∀ t st ev, api.getTrigger id = Except.ok t → api.getTriggerState id = Except.ok st →
      api.getTriggerEvents id = Except.ok ev →
      getData api (some id) s =
        [{ s with
            loading := false
            trigger := some t
            triggerState := some st
            triggerEvents := some ev }]) ∧
    (∀ s' ∈ getData api (some id) s,
      (s'.trigger = s.trigger ∧ s'.triggerState = s.triggerState ∧
        s'.triggerEvents = s.triggerEvents) ∨
      (s'.loading = false ∧ s'.trigger.isSome = true ∧ s'.triggerState.isSome = true ∧
        s'.triggerEvents.isSome = true ∧
        ∃ t st ev, api.getTrigger id = Except.ok t ∧ api.getTriggerState id = Except.ok st ∧
          api.getTriggerEvents id = Except.ok ev)) := by
  refine ⟨?_, ?_, ?_⟩ <;>
    cases h1 : api.getTrigger id <;> cases h2 : api.getTriggerState id <;>
      cases h3 : api.getTriggerEvents id <;> simp_all [getData]

/-- Claim C1 witness: a concrete all-successful cycle from the initial state
commits exactly the one full snapshot. -/
theorem fetch_cycle_atomic_snapshot_witness :
    getData apiAllOk (some "trigger-1") initialViewState =
      [{ initialViewState with
          loading := false
          trigger := some ⟨"trigger-1"⟩
          triggerState := some ⟨[]⟩
          triggerEvents := some ⟨0, [], 1, 100⟩ }] :=
  (fetch_cycle_atomic_snapshot apiAllOk "trigger-1" initialViewState).2.1
    ⟨"trigger-1"⟩ ⟨[]⟩ ⟨0, [], 1, 100⟩ rfl rfl rfl

/-- Claim C2: if any of the three reads rejects, the cycle commits exactly one
state: `error` is the fixed message `"Network error. Please, reload page"`,
the three data fields keep their pre-call values, and `loading` keeps
whatever value it had (it is not set to `false`). -/
theorem fetch_failure_sets_error_only (api : Api) (id : String) (s : ViewState)
    (h : api.getTrigger id = Except.error () ∨
      (∃ t, api.getTrigger id = Except.ok t ∧ api.getTriggerState id = Except.error ()) ∨
      (∃ t st, api.getTrigger id = Except.ok t ∧ api.getTriggerState id = Except.ok st ∧
        api.getTriggerEvents id = Except.error ())) :
    getData api (some id) s = [{ s with error := some networkErrorMessage }] ∧
    ∀ s' ∈ getData api (some id) s,
      s'.error = some "Network error. Please, reload page" ∧
      s'.trigger = s.trigger ∧ s'.triggerState = s.triggerState ∧
      s'.triggerEvents = s.triggerEvents ∧ s'.loading = s.loading := by
  have hmain : getData api (some id) s = [{ s with error := some networkErrorMessage }] := by
    rcases h with h1 | ⟨t, h1, h2⟩ | ⟨t, st, h1, h2, h3⟩
    · simp [getData, h1]
    · simp [getData, h1, h2]
    · simp [getData, h1, h2, h3]
  refine ⟨hmain, ?_⟩
  intro s' hs'
  rw [hmain] at hs'
  simp only [List.mem_singleton] at hs'
  subst hs'
  exact ⟨rfl, rfl, rfl, rfl, rfl⟩

/-- Claim C2 witness: a concrete cycle whose first read rejects leaves all
data fields and `loading` as they were and records the fixed error message. -/
theorem fetch_failure_sets_error_only_witness :
    getData apiFirstFails (some "trigger-1") initialViewState =
      [{ initialViewState with error := some networkErrorMessage }] :=
  (fetch_failure_sets_error_only apiFirstFails "trigger-1" initialViewState
    (Or.inl rfl)).1

/-- Claim C3 counterexample: when the single write call rejects
(`writeOk = false`), each mutation method is aborted at its uncaught `await`
and `this.getData` is never reached — no refresh step occurs, refuting
"invokes the Fetch Orchestrator's refresh unconditionally, i.e. regardless of
whether the write call succeeds or rejects". -/
theorem refresh_skipped_on_rejected_write :
    MutStep.refresh ∉ disableTrhrottling "trigger-1" false ∧
    MutStep.refresh ∉ setMaintenance "trigger-1" 60 "metric-1" 1000 false ∧
    MutStep.refresh ∉ removeMetric "trigger-1" "metric-1" false := by decide

/-- Claim C3 (amended): each of the three mutation operations sets
`loading := true` synchronously before its single write call, performs exactly
one write call, and invokes the Fetch Orchestrator's refresh exactly when the
write call resolves; a rejected write propagates unhandled and the refresh is
not invoked. -/
theorem mutation_template_loading_write_refresh (triggerId metric : String)
    (maintenanceTime now : Int) (writeOk : Bool) :
    ((disableTrhrottling triggerId writeOk).take 2 =
        [MutStep.setLoadingTrue, MutStep.write (ApiWrite.delThrottling triggerId)] ∧
      (disableTrhrottling triggerId writeOk).countP MutStep.isWrite = 1 ∧
      (MutStep.refresh ∈ disableTrhrottling triggerId writeOk ↔ writeOk = true)) ∧
    ((setMaintenance triggerId maintenanceTime metric now writeOk).take 2 =
        [MutStep.setLoadingTrue,
          MutStep.write (ApiWrite.setMaintenance triggerId
            [(metric, maintenancePayloadTime now maintenanceTime)])] ∧
      (setMaintenance triggerId maintenanceTime metric now writeOk).countP MutStep.isWrite = 1 ∧
      (MutStep.refresh ∈ setMaintenance triggerId maintenanceTime metric now writeOk ↔
        writeOk = true)) ∧
    ((removeMetric triggerId metric writeOk).take 2 =
        [MutStep.setLoadingTrue, MutStep.write (ApiWrite.delMetric triggerId metric)] ∧
      (removeMetric triggerId metric writeOk).countP MutStep.isWrite = 1 ∧
      (MutStep.refresh ∈ removeMetric triggerId metric writeOk ↔ writeOk = true)) := by
  cases writeOk <;>
    simp [disableTrhrottling, setMaintenance, removeMetric, MutStep.isWrite,
      List.countP_cons, List.countP_nil]

/-- Claim C3 (amended) witness: the template at concrete inputs, for a
resolving and for a rejecting write. -/
theorem mutation_template_loading_write_refresh_witness :
    (MutStep.refresh ∈ disableTrhrottling "trigger-1" true) ∧
    (disableTrhrottling "trigger-1" true).countP MutStep.isWrite = 1 ∧
    (removeMetric "trigger-1" "metric-1" false).take 2 =
      [MutStep.setLoadingTrue,
        MutStep.write (ApiWrite.delMetric "trigger-1" "metric-1")] :=
  ⟨((mutation_template_loading_write_refresh "trigger-1" "metric-1" 60 1000 true).1.2.2).mpr
      rfl,
    (mutation_template_loading_write_refresh "trigger-1" "metric-1" 60 1000 true).1.2.1,
    (mutation_template_loading_write_refresh "trigger-1" "metric-1" 60 1000 false).2.2.1⟩

/-- Claim C8: selecting the active sort key flips `sortingDown` (twice returns
the whole state to its original value, `sorting` unchanged); selecting a
different key adopts it and resets `sortingDown` to `true` regardless of its
prior value. -/
theorem sort_selection_toggle_law (s : ViewState) (newSorting : Sorting) :
    (newSorting = s.sorting →
      onSort newSorting (onSort newSorting s) = s ∧
      (onSort newSorting s).sorting = s.sorting ∧
      (onSort newSorting s).sortingDown = !s.sortingDown) ∧
    (newSorting ≠ s.sorting →
      (onSort newSorting s).sorting = newSorting ∧
      (onSort newSorting s).sortingDown = true) := by
  constructor
  · intro h
    subst h
    cases s
    simp [onSort]
  · intro h
    simp [onSort, h]

/-- Claim C8 witness: from the initial state, re-selecting `value` twice is
the identity, and selecting `name` adopts it with `sortingDown = true`. -/
theorem sort_selection_toggle_law_witness :
    onSort Sorting.value (onSort Sorting.value initialViewState) = initialViewState ∧
    (onSort Sorting.name initialViewState).sorting = Sorting.name ∧
    (onSort Sorting.name initialViewState).sortingDown = true :=
  ⟨((sort_selection_toggle_law initialViewState Sorting.value).1 rfl).1,
    ((sort_selection_toggle_law initialViewState Sorting.name).2 (by decide)).1,
    ((sort_selection_toggle_law initialViewState Sorting.name).2 (by decide)).2⟩

/-- Claim C9: the effective maintenance timestamp is `now + duration minutes`
in epoch seconds when the computed duration is positive, and the raw computed
value verbatim when it is zero or negative (duration `0` transmits `0`); the
write payload is the single-entry map `[(metric, timestamp)]` and every write
the operation performs carries exactly that payload. -/
theorem setMaintenance_payload_rule (triggerId metric : String)
    (maintenanceTime now : Int) (writeOk : Bool) :
    (0 < maintenanceTime →
      maintenancePayloadTime now maintenanceTime = now + 60 * maintenanceTime) ∧
    (maintenanceTime ≤ 0 →
      maintenancePayloadTime now maintenanceTime = maintenanceTime) ∧
    maintenancePayloadTime now 0 = 0 ∧
    (∀ w, MutStep.write w ∈ setMaintenance triggerId maintenanceTime metric now writeOk →
      w = ApiWrite.setMaintenance triggerId
        [(metric, maintenancePayloadTime now maintenanceTime)]) ∧
    MutStep.write (ApiWrite.setMaintenance triggerId
        [(metric, maintenancePayloadTime now maintenanceTime)]) ∈
      setMaintenance triggerId maintenanceTime metric now writeOk := by
  refine ⟨?_, ?_, ?_, ?_, ?_⟩
  · intro h
    simp [maintenancePayloadTime, h]
  · intro h
    simp [maintenancePayloadTime, not_lt.mpr h]
  · simp [maintenancePayloadTime]
  · intro w hw
    cases writeOk <;> simpa [setMaintenance] using hw
  · cases writeOk <;> simp [setMaintenance]

/-- Claim C9 witness: a 60-minute duration at epoch second 1000 transmits
`1000 + 3600`, `-5` and `0` pass through verbatim. -/
theorem setMaintenance_payload_rule_witness :
    maintenancePayloadTime 1000 60 = 1000 + 60 * 60 ∧
    maintenancePayloadTime 1000 (-5) = -5 ∧
    maintenancePayloadTime 1000 0 = 0 :=
  ⟨(setMaintenance_payload_rule "trigger-1" "metric-1" 60 1000 true).1 (by decide),
    (setMaintenance_payload_rule "trigger-1" "metric-1" (-5) 1000 true).2.1 (by decide),
    (setMaintenance_payload_rule "trigger-1" "metric-1" 0 1000 true).2.2.1⟩

/-- Claim C4: `sortMetrics` is deterministic (calling it twice on identical
inputs gives identical output — trivial in this functional model), and for a
metric map with distinct keys (as JS object keys are) it returns a newly
constructed association that is a permutation of the input: the same key set
with unchanged values, differing only in key order; the input is not
mutated or aliased (the output is rebuilt entry by entry). -/
theorem sortMetrics_pure_permutation (getStatusWeight : String → Int)
    (metrics : List (String × Metric)) (sorting : Sorting) (sortingDown : Bool)
    (hnd : (metrics.map Prod.fst).Nodup) :
    sortMetrics getStatusWeight metrics sorting sortingDown =
      sortMetrics getStatusWeight metrics sorting sortingDown ∧
    (sortMetrics getStatusWeight metrics sorting sortingDown).Perm metrics ∧
    ((sortMetrics getStatusWeight metrics sorting sortingDown).map Prod.fst).Perm
      (metrics.map Prod.fst) ∧
    (∀ k m, (k, m) ∈ sortMetrics getStatusWeight metrics sorting sortingDown ↔
      (k, m) ∈ metrics) := by
  have hperm := sortMetrics_perm_of_nodup getStatusWeight metrics sorting sortingDown hnd
  exact ⟨rfl, hperm, hperm.map Prod.fst, fun k m => hperm.mem_iff⟩

/-- Claim C4 witness: a concrete two-metric map is reordered by value sort
into a permutation of itself. -/
theorem sortMetrics_pure_permutation_witness :
    ((([("b", (⟨"OK", some 1, some 5⟩ : Metric)),
        ("a", (⟨"WARN", some 2, some 3⟩ : Metric))]).map Prod.fst).Nodup) ∧
    (sortMetrics (fun _ => 0)
        [("b", (⟨"OK", some 1, some 5⟩ : Metric)),
          ("a", (⟨"WARN", some 2, some 3⟩ : Metric))]
        Sorting.value true).Perm
      [("b", (⟨"OK", some 1, some 5⟩ : Metric)),
        ("a", (⟨"WARN", some 2, some 3⟩ : Metric))] :=
  ⟨by decide,
    (sortMetrics_pure_permutation (fun _ => 0)
      [("b", (⟨"OK", some 1, some 5⟩ : Metric)),
        ("a", (⟨"WARN", some 2, some 3⟩ : Metric))]
      Sorting.value true (by decide)).2.1⟩

/-- Claim C5: each comparator family obeys the sign convention on its
extracted comparison keys: `A < B` gives `-1` when `sortingDown` and `1`
otherwise, `A > B` gives `1` resp. `-1`, and when neither holds the result is
`0`; for the `event` family the comparison is JS `<` on the raw (possibly
absent) timestamps. -/
theorem comparator_sign_convention (getStatusWeight : String → Int)
    (metrics : List (String × Metric)) (sortingDown : Bool) (a b : String) :
    ((getStatusWeight (findMetric metrics a).state <
        getStatusWeight (findMetric metrics b).state →
      stateCmp getStatusWeight metrics sortingDown a b = if sortingDown then -1 else 1) ∧
     (getStatusWeight (findMetric metrics b).state <
        getStatusWeight (findMetric metrics a).state →
      stateCmp getStatusWeight metrics sortingDown a b = if sortingDown then 1 else -1) ∧
     (¬ getStatusWeight (findMetric metrics a).state <
        getStatusWeight (findMetric metrics b).state →
      ¬ getStatusWeight (findMetric metrics b).state <
        getStatusWeight (findMetric metrics a).state →
      stateCmp getStatusWeight metrics sortingDown a b = 0)) ∧
    ((charListLt (normalizeName a) (normalizeName b) = true →
      nameCmp sortingDown a b = if sortingDown then -1 else 1) ∧
     (charListLt (normalizeName b) (normalizeName a) = true →
      nameCmp sortingDown a b = if sortingDown then 1 else -1) ∧
     (charListLt (normalizeName a) (normalizeName b) = false →
      charListLt (normalizeName b) (normalizeName a) = false →
      nameCmp sortingDown a b = 0)) ∧
    ((jsLt (findMetric metrics a).event_timestamp (findMetric metrics b).event_timestamp = true →
      eventCmp metrics sortingDown a b = if sortingDown then -1 else 1) ∧
     (jsLt (findMetric metrics b).event_timestamp (findMetric metrics a).event_timestamp = true →
      eventCmp metrics sortingDown a b = if sortingDown then 1 else -1) ∧
     (jsLt (findMetric metrics a).event_timestamp (findMetric metrics b).event_timestamp = false →
      jsLt (findMetric metrics b).event_timestamp (findMetric metrics a).event_timestamp = false →
      eventCmp metrics sortingDown a b = 0)) ∧
    (((findMetric metrics a).value.getD 0 < (findMetric metrics b).value.getD 0 →
      valueCmp metrics sortingDown a b = if sortingDown then -1 else 1) ∧
     ((findMetric metrics b).value.getD 0 < (findMetric metrics a).value.getD 0 →
      valueCmp metrics sortingDown a b = if sortingDown then 1 else -1) ∧
     (¬ (findMetric metrics a).value.getD 0 < (findMetric metrics b).value.getD 0 →
      ¬ (findMetric metrics b).value.getD 0 < (findMetric metrics a).value.getD 0 →
      valueCmp metrics sortingDown a b = 0)) := by
  refine ⟨⟨?_, ?_, ?_⟩, ⟨?_, ?_, ?_⟩, ⟨?_, ?_, ?_⟩, ⟨?_, ?_, ?_⟩⟩
  · intro h
    simp [stateCmp, h, lt_asymm h, gt_iff_lt]
  · intro h
    simp [stateCmp, h, lt_asymm h, gt_iff_lt]
  · intro h1 h2
    simp [stateCmp, h1, h2, gt_iff_lt]
  · intro h
    simp [nameCmp, h, charListLt_asymm _ _ h]
  · intro h
    simp [nameCmp, h, charListLt_asymm _ _ h]
  · intro h1 h2
    simp [nameCmp, h1, h2]
  · intro h
    simp [eventCmp, h, jsLt_asymm _ _ h]
  · intro h
    simp [eventCmp, h, jsLt_asymm _ _ h]
  · intro h1 h2
    simp [eventCmp, h1, h2]
  · intro h
    simp [valueCmp, h, lt_asymm h, gt_iff_lt]
  · intro h
    simp [valueCmp, h, lt_asymm h, gt_iff_lt]
  · intro h1 h2
    simp [valueCmp, h1, h2, gt_iff_lt]

/-- Claim C5 witness: the sign convention at concrete inputs, one case per
family. -/
theorem comparator_sign_convention_witness :
    stateCmp (fun s => s.length) [("a", ⟨"W", none, none⟩), ("b", ⟨"WW", none, none⟩)]
      true "a" "b" = -1 ∧
    nameCmp false "b" "a" = -1 ∧
    eventCmp [("a", ⟨"", some 1, none⟩), ("b", ⟨"", some 2, none⟩)] true "b" "a" = 1 ∧
    valueCmp [("a", ⟨"", none, some 7⟩), ("b", ⟨"", none, some 7⟩)] true "a" "b" = 0 :=
  ⟨by
    have h := (comparator_sign_convention (fun s => s.length)
      [("a", ⟨"W", none, none⟩), ("b", ⟨"WW", none, none⟩)] true "a" "b").1.1 (by decide)
    simpa using h,
  by
    have h := (comparator_sign_convention (fun _ => 0) [] false "b" "a").2.1.2.1 (by decide)
    simpa using h,
  by
    have h := (comparator_sign_convention (fun _ => 0)
      [("a", ⟨"", some 1, none⟩), ("b", ⟨"", some 2, none⟩)] true "b" "a").2.2.1.2.1
      (by decide)
    simpa using h,
  by
    have h := (comparator_sign_convention (fun _ => 0)
      [("a", ⟨"", none, some 7⟩), ("b", ⟨"", none, some 7⟩)] true "a" "b").2.2.2.2.2
      (by decide) (by decide)
    simpa using h⟩

/-- Claim C6: the name comparator compares names only through `normalizeName`
(trim whitespace, delete every character outside `[A-Za-z0-9-.]`, lowercase):
any two names with equal normal forms compare as `0`; `"Metric-A!"` and
`"metric-a"` both normalize to `"metric-a"`; and under name sort the output
map still carries the original, non-normalized keys (its key list is a
permutation of the input's). -/
theorem name_comparator_normalizes (sortingDown : Bool) (a b : String)
    (getStatusWeight : String → Int) (metrics : List (String × Metric))
    (hnorm : normalizeName a = normalizeName b)
    (hnd : (metrics.map Prod.fst).Nodup) :
    nameCmp sortingDown a b = 0 ∧
    normalizeName "Metric-A!" = "metric-a".data ∧
    normalizeName "metric-a" = "metric-a".data ∧
    ((sortMetrics getStatusWeight metrics Sorting.name sortingDown).map Prod.fst).Perm
      (metrics.map Prod.fst) := by
  refine ⟨?_, by decide, by decide,
    (sortMetrics_perm_of_nodup getStatusWeight metrics Sorting.name sortingDown hnd).map
      Prod.fst⟩
  simp only [nameCmp, hnorm]
  simp [charListLt_irrefl]

/-- Claim C6 witness: `"Metric-A!"` and `"metric-a"` compare equal under the
name comparator. -/
theorem name_comparator_normalizes_witness :
    nameCmp true "Metric-A!" "metric-a" = 0 :=
  (name_comparator_normalizes true "Metric-A!" "metric-a" (fun _ => 0) []
    (by decide) (by decide)).1

/-- Claim C7: the value comparator reads `value || 0`, so a metric whose
`value` field is absent compares — and sorts — exactly like the same metric
with `value = 0`: against any other metric every comparison and the sorted
key order are unchanged by filling in the `0`. -/
theorem value_comparator_absent_as_zero (getStatusWeight : String → Int)
    (sortingDown : Bool) (a b x y : String) (m n : Metric) (hm : m.value = none) :
    valueCmp [(a, m), (b, n)] sortingDown x y =
      valueCmp [(a, { m with value := some 0 }), (b, n)] sortingDown x y ∧
    (sortMetrics getStatusWeight [(a, m), (b, n)] Sorting.value sortingDown).map Prod.fst =
      (sortMetrics getStatusWeight [(a, { m with value := some 0 }), (b, n)]
        Sorting.value sortingDown).map Prod.fst := by
  have hval : ∀ k, (findMetric [(a, m), (b, n)] k).value.getD 0 =
      (findMetric [(a, { m with value := some 0 }), (b, n)] k).value.getD 0 := by
    intro k
    cases hka : (k == a) with
    | true => simp [findMetric, List.lookup, hka, hm]
    | false =>
      cases hkb : (k == b) with
      | true => simp [findMetric, List.lookup, hka, hkb]
      | false => simp [findMetric, List.lookup, hka, hkb]
  have hcmp : ∀ u v : String, valueCmp [(a, m), (b, n)] sortingDown u v =
      valueCmp [(a, { m with value := some 0 }), (b, n)] sortingDown u v := by
    intro u v
    simp only [valueCmp]
    rw [hval u, hval v]
  refine ⟨hcmp x y, ?_⟩
  apply sortMetrics_key_order_ext
  · simp
  · intro u v
    simpa [sortingFn] using hcmp u v

/-- Claim C7 witness: a metric with absent `value` and the same metric with
`value = 0` compare identically against a `value = 5` metric. -/
theorem value_comparator_absent_as_zero_witness :
    valueCmp [("a", (⟨"", none, none⟩ : Metric)), ("b", ⟨"", none, some 5⟩)] true "a" "b" =
      valueCmp [("a", (⟨"", none, some 0⟩ : Metric)), ("b", ⟨"", none, some 5⟩)]
        true "a" "b" :=
  (value_comparator_absent_as_zero (fun _ => 0) true "a" "b" "a" "b"
    ⟨"", none, none⟩ ⟨"", none, some 5⟩ rfl).1

/-- Claim C10: the event comparator compares raw `event_timestamp` fields
without a default, under JS semantics where `undefined < x` and
`undefined > x` are both false; hence whenever either timestamp is absent the
comparator returns `0` (the metric ties with everything), unlike the value
comparator, which orders an absent `value` as `0` (concrete divergence:
absent vs `5` ties under event sort but yields `-1` under value sort). -/
theorem event_comparator_absent_ties (metrics : List (String × Metric))
    (sortingDown : Bool) (a b : String)
    (h : (findMetric metrics a).event_timestamp = none ∨
      (findMetric metrics b).event_timestamp = none) :
    eventCmp metrics sortingDown a b = 0 ∧
    eventCmp [("a", (⟨"", none, none⟩ : Metric)), ("b", ⟨"", some 5, none⟩)] true "a" "b" = 0 ∧
    valueCmp [("a", (⟨"", none, none⟩ : Metric)), ("b", ⟨"", none, some 5⟩)] true "a" "b" = -1 := by
  refine ⟨?_, by decide, by decide⟩
  rcases h with h | h <;>
    simp [eventCmp, h, jsLt_none_left, jsLt_none_right]

/-- Claim C10 witness: a metric lacking `event_timestamp` ties with one whose
timestamp is `5`. -/
theorem event_comparator_absent_ties_witness :
    eventCmp [("a", (⟨"", none, none⟩ : Metric)), ("b", ⟨"", some 5, none⟩)]
      true "a" "b" = 0 :=
  (event_comparator_absent_ties
    [("a", (⟨"", none, none⟩ : Metric)), ("b", ⟨"", some 5, none⟩)] true "a" "b"
    (Or.inl (by decide))).1

end TriggerContainer
